import Mathlib

/-!
# Verification of the Sniffer Web3 aggregation and normalization layer

Shallow embedding of the repository's data-aggregation core:

* the DEXScreener token route (`removeDuplicates`, `searchBaseTokens`,
  `getAllBaseTokens`, `convertToStandardFormat`, route `GET`),
* the Etherscan client (`makeRequest` retry loop, `getTokenBalances`,
  value/balance unit conversion),
* the wallet-profile aggregation (`fetchRealData` in `WalletProfiler.tsx`),
* the localStorage TTL cache (`loadFromCache` / the token cache check).

JavaScript numbers are modelled as exact rationals (`ℚ`); all values the
theorems evaluate are exactly representable IEEE doubles, for which the
source's arithmetic is exact.  Network effects are modelled by passing each
upstream response (or per-attempt outcome) as an explicit argument.
-/

/-- Character-list prefix test (used to model JavaScript `String.includes`). -/
def listStartsWith : List Char → List Char → Bool
  | [], _ => true
  | _ :: _, [] => false
  | a :: as, b :: bs => a == b && listStartsWith as bs

/-- Does `s` contain `pat` as a contiguous segment?  Models `String.includes`. -/
def listHasSeg (pat : List Char) : List Char → Bool
  | [] => pat.isEmpty
  | c :: rest => listStartsWith pat (c :: rest) || listHasSeg pat rest

/-- JavaScript `s.includes(pat)` for strings. -/
def strContains (s pat : String) : Bool :=
  listHasSeg pat.toList s.toList

/-- `toLowerCase()` over the characters (the addresses involved are ASCII). -/
def strToLower (s : String) : String :=
  ⟨s.data.map Char.toLower⟩

/-- Decimal-digit parse of a character list (`none` when empty or
non-numeric). -/
def parseNatChars (cs : List Char) : Option Nat :=
  if cs.isEmpty then none
  else if cs.all Char.isDigit then
    some (cs.foldl (fun n c => n * 10 + (c.toNat - 48)) 0)
  else none

/-- Numeric value of a decimal string, as `parseInt`/`parseFloat` read the
raw integer strings involved. -/
def strToNat (s : String) : Option Nat :=
  parseNatChars s.data

/-- JavaScript `a || d` for an optional string `a` ( `null`/`undefined`/`""` are
falsy, any other string is truthy). -/
def jsOrD (a : Option String) (d : String) : String :=
  match a with
  | some s => if s = "" then d else s
  | none => d

/-- JavaScript `a || b` where both sides are optional strings. -/
def jsOr (a b : Option String) : Option String :=
  match a with
  | some s => if s = "" then b else some s
  | none => b

/-! ## DEXScreener pair records (`src/unnamed/part_004`)

`DexScreenerToken` restricted to the fields the aggregation logic reads:
`chainId`, `url` (chain filter), `baseToken` (identity), `priceNative`,
`priceUsd`, `volume.h24` (dedup tie-break), `priceChange.h24`,
`liquidity.usd` (sorting), `fdv`, `marketCap`.  The unused sub-windows,
`quoteToken`, `txns` and `info` are omitted.  Optional numeric fields are
`Option ℚ`; the code reads them as `x?.f || 0`. -/

structure DexPair where
  chainId : String
  dexId : String
  url : String
  pairAddress : String
  baseAddress : String
  baseName : String
  baseSymbol : String
  priceNative : String
  priceUsd : Option ℚ
  volumeH24 : Option ℚ
  priceChangeH24 : Option ℚ
  liquidityUsd : Option ℚ
  fdv : Option ℚ
  marketCap : Option ℚ
deriving DecidableEq, Repr

/-- `pair.baseToken.address.toLowerCase()` — the dedup map key. -/
def lowerAddr (p : DexPair) : String :=
  strToLower p.baseAddress

/-- `pair.volume?.h24 || 0` — the `removeDuplicates` tie-break value. -/
def tieVol (p : DexPair) : ℚ :=
  p.volumeH24.getD 0

/-- `pair.liquidity?.usd || 0` — the sort key of the token-list route. -/
def liqD (p : DexPair) : ℚ :=
  p.liquidityUsd.getD 0

/-- `tokenMap.get(k)`: first (and, on the reachable states, only) entry whose
lowercased base address is `k`. -/
def findByKey (k : String) : List DexPair → Option DexPair
  | [] => none
  | p :: rest => if lowerAddr p = k then some p else findByKey k rest

/-- `tokenMap.set(k, v)` when `k` is already bound: replace the entry in
place, keeping its position (JavaScript `Map` keeps insertion order). -/
def replaceByKey (k : String) (v : DexPair) : List DexPair → List DexPair
  | [] => []
  | p :: rest => if lowerAddr p = k then v :: rest else p :: replaceByKey k v rest

/-- One iteration of the `pairs.forEach` body of `removeDuplicates`,
generalized over the tie-break projection (the source instantiates it with
`volume?.h24 || 0`): bind the key if absent, else replace the bound record
exactly when the new record's tie-break value is strictly greater. -/
def dedupeStep (tie : DexPair → ℚ) (acc : List DexPair) (p : DexPair) : List DexPair :=
  match findByKey (lowerAddr p) acc with
  | none => acc ++ [p]
  | some ex => if tie ex < tie p then replaceByKey (lowerAddr p) p acc else acc

/-- The deduplicator over an arbitrary tie-break key. -/
def dedupeBy (tie : DexPair → ℚ) (pairs : List DexPair) : List DexPair :=
  pairs.foldl (dedupeStep tie) []

/-- `removeDuplicates` (part_004 lines 139–152): keep, per lowercased base
address, the pair with the highest 24h volume; output in first-seen key
order (`Array.from(tokenMap.values())`). -/
def removeDuplicates (pairs : List DexPair) : List DexPair :=
  dedupeBy tieVol pairs

/-- The per-key selection the dedup map performs: keep the incumbent unless
the new record's tie-break value is strictly greater. -/
def selStep (tie : DexPair → ℚ) (acc : Option DexPair) (p : DexPair) : Option DexPair :=
  match acc with
  | none => some p
  | some b => if tie b < tie p then some p else some b

/-- Fold `selStep` over a record list: the record `removeDuplicates` keeps
for one key, given all records carrying that key in input order. -/
def selectBest (tie : DexPair → ℚ) (l : List DexPair) : Option DexPair :=
  l.foldl (selStep tie) none

/-! ## Search and token-list aggregation (`src/unnamed/part_004`) -/

/-- Chain filter of `searchBaseTokens`:
`pair.chainId === 'base' || pair.chainId === '8453' || pair.url?.includes('base')`. -/
def isBasePair (p : DexPair) : Bool :=
  p.chainId == "base" || p.chainId == "8453" || strContains p.url "base"

/-- `searchBaseTokens(query)` applied to the `pairs` array of the upstream
search response: filter to Base-chain pairs, then `removeDuplicates`.
(Fetch failures and shape failures return `[]` in the source; the model is
parameterized by the successfully parsed pair list.) -/
def searchBaseTokens (pairs : List DexPair) : List DexPair :=
  removeDuplicates (pairs.filter isBasePair)

/-- `convertToStandardFormat` restricted to the deterministic fields the
claims concern (identity, price/volume numbers, and the embedded
`dex_data`).  `image` (placeholder-URL generation) and `last_updated`
(wall-clock timestamp) are omitted; the always-`null` literal fields are
omitted. -/
structure StdToken where
  id : String
  symbol : String
  name : String
  current_price : ℚ
  market_cap : ℚ
  fully_diluted_valuation : ℚ
  total_volume : ℚ
  price_change_percentage_24h : ℚ
  contract_address : String
  dex_dexId : String
  dex_pairAddress : String
  dex_liquidityUsd : Option ℚ
  dex_priceNative : String
  dex_url : String
deriving DecidableEq, Repr

/-- `convertToStandardFormat(dexToken)` (part_004 lines 90–134). -/
def convertToStandardFormat (p : DexPair) : StdToken :=
  { id := strToLower p.baseAddress
    symbol := p.baseSymbol
    name := p.baseName
    current_price := p.priceUsd.getD 0
    market_cap := p.marketCap.getD 0
    fully_diluted_valuation := p.fdv.getD 0
    total_volume := p.volumeH24.getD 0
    price_change_percentage_24h := p.priceChangeH24.getD 0
    contract_address := p.baseAddress
    dex_dexId := p.dexId
    dex_pairAddress := p.pairAddress
    dex_liquidityUsd := p.liquidityUsd
    dex_priceNative := p.priceNative
    dex_url := p.url }

/-- The `GET` route's search branch (part_004 lines 389–398): search results
converted to the standard format, in the order `searchBaseTokens` returns. -/
def routeSearchTokens (pairs : List DexPair) : List StdToken :=
  (searchBaseTokens pairs).map convertToStandardFormat

/-- `liquidity.usd` of a standard-format token, defaulted like the sort
comparator does. -/
def stdLiq (t : StdToken) : ℚ :=
  t.dex_liquidityUsd.getD 0

/-- Descending-liquidity order: the relation the comparator
`(a, b) => (b.liquidity?.usd || 0) - (a.liquidity?.usd || 0)` sorts by. -/
def liqGe (a b : DexPair) : Prop :=
  liqD b ≤ liqD a

instance : DecidableRel liqGe := fun a b =>
  inferInstanceAs (Decidable (liqD b ≤ liqD a))

instance : IsTotal DexPair liqGe :=
  ⟨fun a b => le_total (liqD b) (liqD a)⟩

instance : IsTrans DexPair liqGe :=
  ⟨fun _ _ _ h1 h2 => le_trans h2 h1⟩

/-- `array.sort((a, b) => (b.liquidity?.usd || 0) - (a.liquidity?.usd || 0))`:
a stable descending sort by liquidity, modelled by stable insertion sort. -/
def sortByLiqDesc (l : List DexPair) : List DexPair :=
  List.insertionSort liqGe l

/-- One per-address lookup of `getAllBaseTokens` (part_004 lines 296–313),
applied to the response for that address: `none` models a failed fetch or a
missing/empty `pairs` array; otherwise filter to `chainId === 'base'` and
return the pair with the highest liquidity (first-seen among ties, as the
stable sort leaves it). -/
def knownTokenLookup (resp : Option (List DexPair)) : Option DexPair :=
  match resp with
  | none => none
  | some pairs =>
    if pairs.isEmpty then none
    else
      let basePairs := pairs.filter (fun p => p.chainId == "base")
      if basePairs.isEmpty then none
      else (sortByLiqDesc basePairs).head?

/-- `KNOWN_BASE_TOKENS` (part_004 lines 196–244), verbatim, duplicates and
all. -/
def KNOWN_BASE_TOKENS : List String :=
  [ "0x4200000000000000000000000000000000000006"
  , "0x833589fcd6edb6e08f4c7c32d4f71b54bda02913"
  , "0x50c5725949a6f0c72e6c4a641f24049a917db0cb"
  , "0x2ae3f1ec7f1f5012cfeab0185bfc7aa3cf0dec22"
  , "0xcbb7c0000ab88b473b1f5afd9ef808440eed33bf"
  , "0x2416092f143378750bb29b79ed961ab195cceea5"
  , "0x1bc0c42215582d5a085795f4badbac3ff36d1bcb"
  , "0x532f27101965dd16442e59d40670faf5ebb142e4"
  , "0xac1bd2486aaf3b5c0fc3fd868558b082a531b2b4"
  , "0x4cbfccdb4e3e5e5e5e5e5e5e5e5e5e5e5e5e5e5e"
  , "0x940181a94a35a4569e4529a3cdfb74e38fd98631"
  , "0x78a087d713be963bf307b18f2ff8122ef9a63ae9"
  , "0xd9aaec86b65d86f6a7b5b1b0c42ffa531710b6ca"
  , "0x22aF33FE49fD1Fa80c7149773dDe5890D3c76F3b"
  , "0x4ed4e862860bed51a9570b96d89af5e1b0efefed"
  , "0x5c1477ba3b5e7b7ba3b5e7b7ba3b5e7b7ba3b5e7"
  , "0x8c6f28f2f1a3c871f3147b6d8a4c0e6e8c6f28f2"
  , "0x68f180fcce6836688e9084f035309e29bf0a2095"
  , "0x7f5c764cbc14f9669b88837ca1490cca17c31607"
  , "0x6b175474e89094c44da98b954eedeac495271d0f"
  , "0x2260fac5e5542a773aa44fbcfedf7c193bc2c599"
  , "0x4ed4e862860bed51a9570b96d89af5e1b0efefed"
  , "0x532f27101965dd16442e59d40670faf5ebb142e4"
  , "0x1bc0c42215582d5a085795f4badbac3ff36d1bcb"
  , "0xac1bd2486aaf3b5c0fc3fd868558b082a531b2b4"
  , "0x8c6f28f2f1a3c871f3147b6d8a4c0e6e8c6f28f2"
  , "0x940181a94a35a4569e4529a3cdfb74e38fd98631"
  , "0x78a087d713be963bf307b18f2ff8122ef9a63ae9"
  , "0xd9aaec86b65d86f6a7b5b1b0c42ffa531710b6ca"
  , "0x2ae3f1ec7f1f5012cfeab0185bfc7aa3cf0dec22"
  , "0xcbb7c0000ab88b473b1f5afd9ef808440eed33bf"
  , "0x2416092f143378750bb29b79ed961ab195cceea5" ]

/-- `popularSearches` (part_004 lines 321–332), verbatim. -/
def popularSearches : List String :=
  [ "base", "brett", "clanker", "toshi", "mfer", "doge", "pepe", "shib"
  , "usdc", "usdt", "dai", "weth", "eth", "btc", "aero", "aerodrome"
  , "based", "normie", "mochi", "boden", "pump", "higher", "tybg"
  , "brian", "turbot", "friend", "wif", "bome", "degen", "bankr"
  , "usdb", "usdbase", "cbeth", "cbbtc", "ezeth", "steth", "reth"
  , "meme", "coin", "token", "swap", "dex", "defi", "yield", "farm"
  , "vault", "pool", "liquidity", "governance", "dao", "nft", "game"
  , "gaming", "metaverse", "ai", "artificial", "intelligence", "web3"
  , "crypto", "blockchain", "ethereum", "layer2", "l2", "scaling" ]

/-- One broad-search arm of `getAllBaseTokens`: `searchBaseTokens(query)`
applied to the response for that query (`none` models a failed fetch,
which the source turns into `[]`). -/
def searchArm (resp : Option (List DexPair)) : List DexPair :=
  match resp with
  | none => []
  | some pairs => searchBaseTokens pairs

/-- `allTokens = [...knownTokens, ...additionalTokens]` of
`getAllBaseTokens`: liquidity-sorted per-address lookups over the curated
list, followed by the top-4 slices of each broad keyword search.  The
upstream is modelled by the two response maps. -/
def mergedTokens (fetchResp : String → Option (List DexPair))
    (searchResp : String → Option (List DexPair)) : List DexPair :=
  let knownTokens :=
    sortByLiqDesc ((KNOWN_BASE_TOKENS.map (fun a => knownTokenLookup (fetchResp a))).filterMap id)
  let additionalTokens :=
    (popularSearches.map (fun q => (searchArm (searchResp q)).take 4)).flatten
  knownTokens ++ additionalTokens

/-- `getAllBaseTokens` (part_004 lines 291–363): merge, `removeDuplicates`,
sort by liquidity descending, keep the top 100. -/
def getAllBaseTokens (fetchResp : String → Option (List DexPair))
    (searchResp : String → Option (List DexPair)) : List DexPair :=
  (sortByLiqDesc (removeDuplicates (mergedTokens fetchResp searchResp))).take 100

/-! ## TTL cache (`WalletProfiler.tsx` `loadFromCache`, `TokenExplorer.tsx` cache check)

Both call sites compute `age = Date.now() - timestamp` and treat the entry
as fresh exactly when `age < CACHE_DURATION`; `loadFromCache` additionally
removes the expired entry (`localStorage.removeItem`).  The TTL is the call
site's constant (30 minutes for the wallet profile, 3 minutes for the token
list).  Times are modelled as integer milliseconds. -/

structure CacheEntry (α : Type) where
  payload : α
  timestamp : ℤ
deriving DecidableEq

/-- `CACHE_DURATION` of `WalletProfiler.tsx` (30 minutes, in ms). -/
def CACHE_DURATION_WALLET : ℤ := 30 * 60 * 1000

/-- `CACHE_DURATION` of `TokenExplorer.tsx` `fetchTokens` (3 minutes, in ms). -/
def CACHE_DURATION_TOKENS : ℤ := 3 * 60 * 1000

/-- A cache read at time `now` with time-to-live `ttl`: result value and the
store after the read (the stale entry is removed, as in `loadFromCache`). -/
def cacheGet {α : Type} (store : Option (CacheEntry α)) (now ttl : ℤ) :
    Option α × Option (CacheEntry α) :=
  match store with
  | none => (none, none)
  | some e =>
    let age := now - e.timestamp
    if age < ttl then (some e.payload, some e)
    else (none, none)

/-! ## Etherscan client retry loop (`src/src/lib/etherscan.ts` `makeRequest`)

One call of `makeRequest` runs up to `maxRetries = 3` attempts.  What the
upstream does on the `n`-th attempt is modelled by `env n : Attempt`; the
loop body's branching is translated case by case.  The backoff sleeps only
affect timing and are dropped. -/

/-- A JSON-ish value: enough structure for the response `result` field. -/
inductive ApiValue where
  | nullV
  | strV (s : String)
  | numV (q : ℚ)
  | listV (vs : List String)
  | objV
deriving DecidableEq, Repr

/-- Rough stringification used when a `result` is interpolated into an error
message (`${errorResult}`). -/
def apiValueText : ApiValue → String
  | .nullV => "null"
  | .strV s => s
  | .numV q => toString q
  | .listV _ => "[array]"
  | .objV => "[object Object]"

/-- A successfully parsed response body, as the code inspects it:
`{ status?, message?, result, jsonrpc?, error? }`. -/
structure EsBody where
  status : Option String
  message : Option String
  result : ApiValue
  jsonrpc : Option String
  rpcError : Option (String × Int)
deriving DecidableEq, Repr

/-- Upstream behavior of a single attempt. -/
inductive Attempt where
  /-- The 30s `AbortController` timeout fired (`AbortError`). -/
  | timeout
  /-- `!response.ok`: HTTP failure with status and status text. -/
  | httpError (status : Nat) (statusText : String)
  /-- A parsed JSON body. -/
  | body (b : EsBody)
  /-- `fetch`/`json()` threw a non-abort error with this message. -/
  | fetchError (msg : String)
deriving DecidableEq, Repr

/-- The transient-error test of the catch block: message includes
`fetch`/`network`/`ECONNRESET`/`ETIMEDOUT`. -/
def msgIsTransient (msg : String) : Bool :=
  strContains msg "fetch" || strContains msg "network" ||
    strContains msg "ECONNRESET" || strContains msg "ETIMEDOUT"

/-- Outcome of one attempt: `inl r` ends the loop with `r`; `inr le`
continues to the next attempt, `le = some m` updating `lastError` to `m`. -/
abbrev StepOut := Except String ApiValue ⊕ Option String

/-- The catch block of `makeRequest` for a thrown non-abort error with
message `msg`: transient errors and, on non-final attempts, every error
fall through to the next attempt; on the final attempt the error is
rethrown. -/
def catchClassify (msg : String) (isLast : Bool) : StepOut :=
  if msgIsTransient msg && !isLast then .inr (some msg)
  else if isLast then .inl (.error msg)
  else .inr (some msg)

/-- The `data.status !== '1'` branch: rate-limit errors retry; `Invalid
address` / `No transactions found` short-circuit to a successful empty
array; anything else retries until the final attempt, which throws (and is
caught by the catch block of the same iteration). -/
def esErrorStep (b : EsBody) (isLast : Bool) : StepOut :=
  let errorMsg := b.message.getD "Unknown error"
  let special : Option StepOut :=
    match b.result with
    | .strV r =>
      if errorMsg = "NOTOK" then
        if strContains r "rate limit" || strContains r "Max rate limit reached" then
          some (.inr none)
        else if strContains r "Invalid address" || strContains r "No transactions found" then
          some (.inl (.ok (.listV [])))
        else none
      else none
    | _ => none
  match special with
  | some step => step
  | none =>
    if !isLast then .inr none
    else catchClassify ("Base V2 API error: " ++ errorMsg ++ " - " ++ apiValueText b.result) isLast

/-- Processing of a parsed body: Etherscan format when `status` is present,
JSON-RPC format when `jsonrpc` is present, otherwise an unknown-format
error.  A null `result` becomes a successful empty array. -/
def bodyStep (b : EsBody) (isLast : Bool) : StepOut :=
  match b.status with
  | some st =>
    if st = "1" then
      if b.result = .nullV then .inl (.ok (.listV []))
      else .inl (.ok b.result)
    else esErrorStep b isLast
  | none =>
    match b.jsonrpc with
    | some _ =>
      match b.rpcError with
      | some (m, c) => catchClassify (s!"JSON-RPC error: {m} ({c})") isLast
      | none =>
        if b.result = .nullV then .inl (.ok (.listV []))
        else .inl (.ok b.result)
    | none => catchClassify "Unknown API response format" isLast

/-- One iteration of the `for (attempt = 1; attempt <= maxRetries; ...)`
body, as a function of that attempt's upstream behavior and of whether this
is the final attempt. -/
def attemptStep (a : Attempt) (isLast : Bool) : StepOut :=
  match a with
  | .timeout =>
    if !isLast then .inr (some "The operation was aborted")
    else .inl (.error "Request timeout - API took too long to respond after all retries")
  | .httpError status statusText => catchClassify (s!"HTTP {status}: {statusText}") isLast
  | .body b => bodyStep b isLast
  | .fetchError msg => catchClassify msg isLast

/-- The attempt loop.  `fuel` is the number of attempts still allowed
(`maxRetries - attempt + 1` at every call); when it runs out the loop falls
through to `throw lastError || new Error('All retry attempts failed')`.
Returns the result together with the number of attempts performed. -/
def makeRequestGo (env : Nat → Attempt) (maxRetries : Nat) :
    Nat → Nat → Option String → Except String ApiValue × Nat
  | 0, _, lastError => (.error (lastError.getD "All retry attempts failed"), 0)
  | fuel + 1, attempt, lastError =>
    match attemptStep (env attempt) (!decide (attempt < maxRetries)) with
    | .inl r => (r, 1)
    | .inr le =>
      let rest := makeRequestGo env maxRetries fuel (attempt + 1) (le.orElse fun _ => lastError)
      (rest.1, rest.2 + 1)

/-- `makeRequest` with the default `maxRetries = 3` (every call site uses
the default): the final outcome. -/
def makeRequest (env : Nat → Attempt) : Except String ApiValue :=
  (makeRequestGo env 3 3 1 none).1

/-- Number of attempts `makeRequest` performs against upstream behavior
`env`. -/
def makeRequestAttempts (env : Nat → Attempt) : Nat :=
  (makeRequestGo env 3 3 1 none).2

/-! ## Token balances (`etherscan.ts` `getTokenBalances`, route `part_005`) -/

/-- A raw `tokentx` transfer record, restricted to the fields
`getTokenBalances` reads (it also probes a nonexistent `address` field). -/
structure RawTransfer where
  contractAddress : Option String
  address : Option String
  tokenName : Option String
  tokenSymbol : Option String
  tokenDecimal : Option String
deriving DecidableEq, Repr

/-- `EtherscanTokenBalance` as `getTokenBalances` builds it. -/
structure EtherscanTokenBalance where
  account : String
  balance : String
  balanceFormatted : String
  tokenName : String
  tokenSymbol : String
  tokenDecimal : String
  contractAddress : String
deriving DecidableEq, Repr

/-- The `tokenTransfers.forEach` body of `getTokenBalances`: first-seen
insertion into the token map, with `balance` hardcoded to `'0'` and
`balanceFormatted` hardcoded to `'0'`. -/
def tokenBalanceStep (addr : String) (acc : List EtherscanTokenBalance)
    (t : RawTransfer) : List EtherscanTokenBalance :=
  match jsOr t.contractAddress t.address with
  | none => acc
  | some c =>
    if c ≠ "" ∧ acc.all (fun b => b.contractAddress ≠ c) then
      acc ++ [{ account := addr
                balance := "0"
                tokenName := jsOrD t.tokenName "Unknown Token"
                tokenSymbol := jsOrD t.tokenSymbol "UNKNOWN"
                tokenDecimal := jsOrD t.tokenDecimal "18"
                contractAddress := c
                balanceFormatted := "0" }]
    else acc

/-- `getTokenBalances(address)` (etherscan.ts lines 405–442) applied to the
transfer list its inner `getTokenTransfers` call produced. -/
def getTokenBalances (addr : String) (transfers : List RawTransfer) :
    List EtherscanTokenBalance :=
  transfers.foldl (tokenBalanceStep addr) []

/-! ## Unit conversion (`formatTransaction`, route `part_005` balances branch)

Modelled over exact rationals; the decimal strings the claims evaluate
parse and divide exactly in IEEE doubles as well. -/

/-- `parseInt(s)` / `parseFloat(s)` on a decimal digit string, as a
rational (`0` for the non-numeric strings the claims never use). -/
def parseDecQ (s : String) : ℚ :=
  ((strToNat s).getD 0 : ℚ)

/-- The native-value normalization of `formatTransaction`:
`parseInt(tx.value) / Math.pow(10, 18)`. -/
def formatTransactionValueQ (valueStr : String) : ℚ :=
  parseDecQ valueStr / 10 ^ 18

/-- The balances branch of route `part_005`:
`parseFloat(balance) / Math.pow(10, parseInt(tokenDecimal))`. -/
def routeBalanceFormatted (balance tokenDecimal : String) : ℚ :=
  parseDecQ balance / 10 ^ ((strToNat tokenDecimal).getD 0)

/-! ## Wallet-profile aggregation (`WalletProfiler.tsx` `fetchRealData`)

The three parallel sub-calls are joined with `Promise.allSettled`; each
settled response is reduced to `{ success, data }` (a rejected promise
becomes `{ success: false, data: null }`).  `data: none` models a
null/undefined `data` field; a present empty list is truthy in the source
and is modelled as `some []`. -/

structure SubResp (α : Type) where
  success : Bool
  data : Option α
deriving DecidableEq, Repr

/-- `xData.success && xData.data` — the per-source success test. -/
def hasData {α : Type} (r : SubResp α) : Bool :=
  r.success && r.data.isSome

/-- The wallet-summary payload, restricted to the fields the balance
defaulting spread reads. -/
structure WalletData where
  ethBalanceEth : Option String
  balance : Option String
deriving DecidableEq, Repr

/-- `{ ...walletData.data, balance: data.ethBalance?.eth || data.balance || '0' }`. -/
def walletWithBalance (w : WalletData) : WalletData :=
  { w with balance := some (jsOrD w.ethBalanceEth (jsOrD w.balance "0")) }

/-- The composite `realData` value. -/
structure EtherscanData (T K : Type) where
  wallet : Option WalletData
  transactions : List T
  tokens : List K
deriving DecidableEq, Repr

/-- `fetchRealData` (WalletProfiler.tsx lines 448–506) after the three
sub-responses settle: succeed when at least one source has data, defaulting
the failed sources; throw `All API calls failed to fetch wallet data` when
none has. -/
def fetchRealData {T K : Type} (walletR : SubResp WalletData)
    (txR : SubResp (List T)) (tokR : SubResp (List K)) :
    Except String (EtherscanData T K) :=
  let hasW := hasData walletR
  let hasT := hasData txR
  let hasK := hasData tokR
  if hasW || hasT || hasK then
    .ok { wallet := if hasW then walletR.data.map walletWithBalance else none
          transactions := if hasT then txR.data.getD [] else []
          tokens := if hasK then tokR.data.getD [] else [] }
  else
    .error "All API calls failed to fetch wallet data"

/-! ## Concrete records for the evaluated instances -/

/-- A Base-chain pair record with the given base address, 24h volume and
liquidity; the remaining fields are fixed plausible values. -/
def mkPair (addr : String) (vol liq : ℚ) : DexPair :=
  { chainId := "base"
    dexId := "uniswap"
    url := "https://dexscreener.com/base/pool"
    pairAddress := "0xpair"
    baseAddress := addr
    baseName := "Token"
    baseSymbol := "TKN"
    priceNative := "1"
    priceUsd := some 1
    volumeH24 := some vol
    priceChangeH24 := some 0
    liquidityUsd := some liq
    fdv := none
    marketCap := none }

/-- Volume-100 record of the dedup example. -/
def pairVol100 : DexPair := mkPair "0xAAA" 100 10

/-- Volume-200 record of the dedup example (same contract address). -/
def pairVol200 : DexPair := mkPair "0xAAA" 200 10

/-- Search result seen first: liquidity 10. -/
def pLowLiq : DexPair := mkPair "0xaaa0000000000000000000000000000000000001" 5 10

/-- Search result seen second: liquidity 100, distinct address. -/
def pHighLiq : DexPair := mkPair "0xbbb0000000000000000000000000000000000002" 5 100

/-- Curated-lookup record: liquidity 100 but 24h volume only 5. -/
def pKnownHighLiq : DexPair := mkPair "0xccc0000000000000000000000000000000000003" 5 100

/-- Search record for the same address: liquidity 50 but 24h volume 10. -/
def pSearchLowLiq : DexPair := mkPair "0xccc0000000000000000000000000000000000003" 10 50

/-- Upstream per-address responses of the `getAllBaseTokens` instance: only
the first curated address resolves, to the high-liquidity pair. -/
def fetchRespCE : String → Option (List DexPair) :=
  fun a => if a = "0x4200000000000000000000000000000000000006" then some [pKnownHighLiq] else none

/-- Upstream search responses of the `getAllBaseTokens` instance: only the
query `base` returns a pair, the low-liquidity one for the same address. -/
def searchRespCE : String → Option (List DexPair) :=
  fun q => if q = "base" then some [pSearchLowLiq] else none

example : removeDuplicates [pairVol100, pairVol200] = [pairVol200] := by decide
example : removeDuplicates [pairVol200, pairVol100] = [pairVol200] := by decide
example : removeDuplicates [mkPair "0xAAA" 100 1, mkPair "0xaaa" 100 2] = [mkPair "0xAAA" 100 1] := by decide
example : searchBaseTokens [pLowLiq, pHighLiq] = [pLowLiq, pHighLiq] := by decide
example : mergedTokens fetchRespCE searchRespCE = [pKnownHighLiq, pSearchLowLiq] := by decide
example : getAllBaseTokens fetchRespCE searchRespCE = [pSearchLowLiq] := by decide

/-- A semantically-empty Etherscan error body: `status 0`, message `NOTOK`,
result string reporting an invalid address. -/
def emptyBody : EsBody :=
  { status := some "0"
    message := some "NOTOK"
    result := ApiValue.strV "Error! Invalid address format"
    jsonrpc := none
    rpcError := none }

/-- A wallet-summary response that succeeded. -/
def wRespEx : SubResp WalletData := ⟨true, some ⟨some "1.5", none⟩⟩

/-- A transaction-list response that failed. -/
def tRespEx : SubResp (List Nat) := ⟨false, none⟩

/-- A token-balances response that succeeded. -/
def kRespEx : SubResp (List Nat) := ⟨true, some [7]⟩

/-- The composite the aggregation builds from the three responses above. -/
def aggEx : EtherscanData Nat Nat :=
  { wallet := some (walletWithBalance ⟨some "1.5", none⟩)
    transactions := []
    tokens := [7] }

/-- A raw token transfer record. -/
def transferEx : RawTransfer :=
  { contractAddress := some "0xc"
    address := none
    tokenName := some "Tok"
    tokenSymbol := some "TK"
    tokenDecimal := some "6" }

/-- The balance record `getTokenBalances` builds from `transferEx`. -/
def balEx : EtherscanTokenBalance :=
  { account := "0xme"
    balance := "0"
    balanceFormatted := "0"
    tokenName := "Tok"
    tokenSymbol := "TK"
    tokenDecimal := "6"
    contractAddress := "0xc" }

/-! ## Lemmas about the dedup map -/

theorem findByKey_eq_none {k : String} {l : List DexPair} :
    findByKey k l = none ↔ k ∉ l.map lowerAddr := by
  induction l with
  | nil => simp [findByKey]
  | cons p rest ih =>
    by_cases h : lowerAddr p = k
    · subst h; simp [findByKey]
    · have hk : ¬ k = lowerAddr p := fun e => h e.symm
      simp [findByKey, h, ih, hk]

theorem findByKey_some {k : String} {l : List DexPair} {p : DexPair}
    (h : findByKey k l = some p) : p ∈ l ∧ lowerAddr p = k := by
  induction l with
  | nil => simp [findByKey] at h
  | cons q rest ih =>
    by_cases hq : lowerAddr q = k
    · simp only [findByKey, hq, if_true, Option.some.injEq] at h
      subst h; exact ⟨List.mem_cons_self .., hq⟩
    · simp only [findByKey, hq, if_false] at h
      rcases ih h with ⟨h1, h2⟩
      exact ⟨List.mem_cons_of_mem _ h1, h2⟩

theorem findByKey_append {k : String} {l₁ l₂ : List DexPair} :
    findByKey k (l₁ ++ l₂) = (findByKey k l₁).or (findByKey k l₂) := by
  induction l₁ with
  | nil => simp [findByKey, Option.or]
  | cons p rest ih =>
    by_cases h : lowerAddr p = k <;> simp [findByKey, h, ih, Option.or]

theorem replaceByKey_map_lowerAddr {k : String} {v : DexPair} (hv : lowerAddr v = k) :
    ∀ l : List DexPair, (replaceByKey k v l).map lowerAddr = l.map lowerAddr := by
  intro l
  induction l with
  | nil => simp [replaceByKey]
  | cons p rest ih =>
    by_cases h : lowerAddr p = k
    · simp [replaceByKey, h, hv]
    · simp [replaceByKey, h, ih]

theorem findByKey_replaceByKey_self {k : String} {v : DexPair} {l : List DexPair}
    (hv : lowerAddr v = k) (hk : k ∈ l.map lowerAddr) :
    findByKey k (replaceByKey k v l) = some v := by
  induction l with
  | nil => simp at hk
  | cons p rest ih =>
    by_cases h : lowerAddr p = k
    · simp [replaceByKey, h, findByKey, hv]
    · have hk2 : k ∈ rest.map lowerAddr := by
        rw [List.map_cons, List.mem_cons] at hk
        rcases hk with h1 | h1
        · exact absurd h1.symm h
        · exact h1
      simp [replaceByKey, h, findByKey, ih hk2]

theorem findByKey_replaceByKey_ne {k k' : String} {v : DexPair} {l : List DexPair}
    (hv : lowerAddr v = k) (hne : k' ≠ k) :
    findByKey k' (replaceByKey k v l) = findByKey k' l := by
  induction l with
  | nil => simp [replaceByKey]
  | cons p rest ih =>
    by_cases h : lowerAddr p = k
    · have h2 : ¬ lowerAddr v = k' := by rw [hv]; exact fun e => hne e.symm
      have h3 : ¬ lowerAddr p = k' := by rw [h]; exact fun e => hne e.symm
      have h4 : k ≠ k' := fun e => hne e.symm
      simp [replaceByKey, h, findByKey, h2, h3, h4]
    · by_cases h' : lowerAddr p = k' <;> simp [replaceByKey, h, findByKey, h', ih, hne]

theorem dedupeStep_map_lowerAddr (tie : DexPair → ℚ) (acc : List DexPair) (p : DexPair) :
    (dedupeStep tie acc p).map lowerAddr =
      if lowerAddr p ∈ acc.map lowerAddr then acc.map lowerAddr
      else acc.map lowerAddr ++ [lowerAddr p] := by
  unfold dedupeStep
  cases hf : findByKey (lowerAddr p) acc with
  | none =>
    have hm : lowerAddr p ∉ acc.map lowerAddr := findByKey_eq_none.mp hf
    simp [hm]
  | some ex =>
    have hmem : lowerAddr p ∈ acc.map lowerAddr := by
      rcases findByKey_some hf with ⟨h1, h2⟩
      exact h2 ▸ List.mem_map_of_mem _ h1
    by_cases hlt : tie ex < tie p
    · simp [hlt, hmem, replaceByKey_map_lowerAddr rfl]
    · simp [hlt, hmem]

theorem dedupeStep_keys_nodup {tie : DexPair → ℚ} {acc : List DexPair} {p : DexPair}
    (h : (acc.map lowerAddr).Nodup) : ((dedupeStep tie acc p).map lowerAddr).Nodup := by
  rw [dedupeStep_map_lowerAddr]
  by_cases hm : lowerAddr p ∈ acc.map lowerAddr
  · simpa [hm] using h
  · simp [hm, List.nodup_append, h]

theorem findByKey_dedupeStep (tie : DexPair → ℚ) (acc : List DexPair) (p : DexPair)
    (k : String) :
    findByKey k (dedupeStep tie acc p) =
      if lowerAddr p = k then selStep tie (findByKey k acc) p else findByKey k acc := by
  unfold dedupeStep
  cases hf : findByKey (lowerAddr p) acc with
  | none =>
    rw [findByKey_append]
    by_cases h : lowerAddr p = k
    · subst h; rw [hf]; simp [findByKey, selStep, Option.or]
    · cases hacc : findByKey k acc <;> simp [findByKey, h, Option.or]
  | some ex =>
    by_cases hlt : tie ex < tie p
    · simp only [hlt, if_true]
      by_cases h : lowerAddr p = k
      · subst h
        have hmem : lowerAddr p ∈ acc.map lowerAddr := by
          rcases findByKey_some hf with ⟨h1, h2⟩
          exact h2 ▸ List.mem_map_of_mem _ h1
        rw [findByKey_replaceByKey_self rfl hmem, hf]
        simp [selStep, hlt]
      · rw [findByKey_replaceByKey_ne rfl (fun e => h e.symm)]
        simp [h]
    · simp only [hlt, if_false]
      by_cases h : lowerAddr p = k
      · subst h; rw [hf]; simp [selStep, hlt]
      · simp [h]

theorem findByKey_foldl (tie : DexPair → ℚ) :
    ∀ (l acc : List DexPair) (k : String),
      findByKey k (l.foldl (dedupeStep tie) acc) =
        (l.filter (fun q => lowerAddr q == k)).foldl (selStep tie) (findByKey k acc) := by
  intro l
  induction l with
  | nil => intro acc k; simp
  | cons p rest ih =>
    intro acc k
    simp only [List.foldl_cons, List.filter_cons]
    by_cases h : lowerAddr p = k
    · rw [ih, findByKey_dedupeStep]
      simp [h]
    · rw [ih, findByKey_dedupeStep]
      simp [h]

theorem findByKey_dedupeBy (tie : DexPair → ℚ) (l : List DexPair) (k : String) :
    findByKey k (dedupeBy tie l) = selectBest tie (l.filter (fun q => lowerAddr q == k)) := by
  unfold dedupeBy selectBest
  rw [findByKey_foldl]
  rfl

theorem foldl_dedupeStep_keys_nodup (tie : DexPair → ℚ) :
    ∀ (l acc : List DexPair), (acc.map lowerAddr).Nodup →
      ((l.foldl (dedupeStep tie) acc).map lowerAddr).Nodup := by
  intro l
  induction l with
  | nil => intro acc h; simpa using h
  | cons p rest ih => intro acc h; exact ih _ (dedupeStep_keys_nodup h)

theorem dedupeBy_keys_nodup (tie : DexPair → ℚ) (l : List DexPair) :
    ((dedupeBy tie l).map lowerAddr).Nodup :=
  foldl_dedupeStep_keys_nodup tie l [] (by simp)

theorem selFold_isSome (tie : DexPair → ℚ) :
    ∀ (m : List DexPair) (b : DexPair), ∃ p, m.foldl (selStep tie) (some b) = some p := by
  intro m
  induction m with
  | nil => intro b; exact ⟨b, rfl⟩
  | cons q rest ih =>
    intro b
    simp only [List.foldl_cons]
    by_cases h : tie b < tie q
    · rw [show selStep tie (some b) q = some q from by simp [selStep, h]]
      exact ih q
    · rw [show selStep tie (some b) q = some b from by simp [selStep, h]]
      exact ih b

theorem selectBest_eq_none_iff (tie : DexPair → ℚ) (m : List DexPair) :
    selectBest tie m = none ↔ m = [] := by
  cases m with
  | nil => simp [selectBest]
  | cons q rest =>
    simp only [selectBest, List.foldl_cons]
    rw [show selStep tie none q = some q from rfl]
    rcases selFold_isSome tie rest q with ⟨p, hp⟩
    simp [hp]

theorem selFold_mem_le (tie : DexPair → ℚ) :
    ∀ (m : List DexPair) (b p : DexPair), m.foldl (selStep tie) (some b) = some p →
      (p = b ∨ p ∈ m) ∧ tie b ≤ tie p ∧ ∀ q ∈ m, tie q ≤ tie p := by
  intro m
  induction m with
  | nil =>
    intro b p h
    simp only [List.foldl_nil, Option.some.injEq] at h
    subst h
    exact ⟨Or.inl rfl, le_refl _, by simp⟩
  | cons q rest ih =>
    intro b p h
    simp only [List.foldl_cons] at h
    by_cases hlt : tie b < tie q
    · rw [show selStep tie (some b) q = some q from by simp [selStep, hlt]] at h
      rcases ih q p h with ⟨h1, h2, h3⟩
      refine ⟨?_, le_trans (le_of_lt hlt) h2, ?_⟩
      · rcases h1 with rfl | h1
        · exact Or.inr (List.mem_cons_self ..)
        · exact Or.inr (List.mem_cons_of_mem _ h1)
      · intro r hr
        rcases List.mem_cons.mp hr with rfl | hr
        · exact h2
        · exact h3 r hr
    · rw [show selStep tie (some b) q = some b from by simp [selStep, hlt]] at h
      rcases ih b p h with ⟨h1, h2, h3⟩
      refine ⟨?_, h2, ?_⟩
      · rcases h1 with rfl | h1
        · exact Or.inl rfl
        · exact Or.inr (List.mem_cons_of_mem _ h1)
      · intro r hr
        rcases List.mem_cons.mp hr with rfl | hr
        · exact le_trans (not_lt.mp hlt) h2
        · exact h3 r hr

theorem selectBest_spec (tie : DexPair → ℚ) (m : List DexPair) (p : DexPair)
    (h : selectBest tie m = some p) : p ∈ m ∧ ∀ q ∈ m, tie q ≤ tie p := by
  cases m with
  | nil => simp [selectBest] at h
  | cons q rest =>
    simp only [selectBest, List.foldl_cons] at h
    rw [show selStep tie none q = some q from rfl] at h
    rcases selFold_mem_le tie rest q p h with ⟨h1, h2, h3⟩
    constructor
    · rcases h1 with rfl | h1
      · exact List.mem_cons_self ..
      · exact List.mem_cons_of_mem _ h1
    · intro r hr
      rcases List.mem_cons.mp hr with rfl | hr
      · exact h2
      · exact h3 r hr

theorem selFold_first (tie : DexPair → ℚ) :
    ∀ (m : List DexPair) (b p : DexPair), m.foldl (selStep tie) (some b) = some p →
      (p = b ∧ ∀ q ∈ m, tie q ≤ tie b) ∨
        ∃ m₁ m₂, m = m₁ ++ p :: m₂ ∧ tie b < tie p ∧ ∀ q ∈ m₁, tie q < tie p := by
  intro m
  induction m with
  | nil =>
    intro b p h
    simp only [List.foldl_nil, Option.some.injEq] at h
    subst h
    exact Or.inl ⟨rfl, by simp⟩
  | cons q rest ih =>
    intro b p h
    simp only [List.foldl_cons] at h
    by_cases hlt : tie b < tie q
    · rw [show selStep tie (some b) q = some q from by simp [selStep, hlt]] at h
      rcases ih q p h with ⟨rfl, _⟩ | ⟨m₁, m₂, rfl, hqp, hm₁⟩
      · exact Or.inr ⟨[], rest, rfl, hlt, by simp⟩
      · refine Or.inr ⟨q :: m₁, m₂, by simp, lt_trans hlt hqp, ?_⟩
        intro r hr
        rcases List.mem_cons.mp hr with rfl | hr
        · exact hqp
        · exact hm₁ r hr
    · rw [show selStep tie (some b) q = some b from by simp [selStep, hlt]] at h
      rcases ih b p h with ⟨rfl, hq⟩ | ⟨m₁, m₂, rfl, hbp, hm₁⟩
      · refine Or.inl ⟨rfl, ?_⟩
        intro r hr
        rcases List.mem_cons.mp hr with rfl | hr
        · exact not_lt.mp hlt
        · exact hq r hr
      · refine Or.inr ⟨q :: m₁, m₂, by simp, hbp, ?_⟩
        intro r hr
        rcases List.mem_cons.mp hr with rfl | hr
        · exact lt_of_le_of_lt (not_lt.mp hlt) hbp
        · exact hm₁ r hr

theorem selectBest_first (tie : DexPair → ℚ) (m : List DexPair) (p : DexPair)
    (h : selectBest tie m = some p) :
    ∃ m₁ m₂, m = m₁ ++ p :: m₂ ∧ ∀ q ∈ m₁, tie q < tie p := by
  cases m with
  | nil => simp [selectBest] at h
  | cons q rest =>
    simp only [selectBest, List.foldl_cons] at h
    rw [show selStep tie none q = some q from rfl] at h
    rcases selFold_first tie rest q p h with ⟨rfl, _⟩ | ⟨m₁, m₂, rfl, hqp, hm₁⟩
    · exact ⟨[], rest, rfl, by simp⟩
    · refine ⟨q :: m₁, m₂, by simp, ?_⟩
      intro r hr
      rcases List.mem_cons.mp hr with rfl | hr
      · exact hqp
      · exact hm₁ r hr

theorem findByKey_of_mem_nodup :
    ∀ {l : List DexPair} {p : DexPair}, (l.map lowerAddr).Nodup → p ∈ l →
      findByKey (lowerAddr p) l = some p := by
  intro l
  induction l with
  | nil => intro p _ h; simp at h
  | cons q rest ih =>
    intro p hnd hp
    rcases List.mem_cons.mp hp with rfl | hp
    · simp [findByKey]
    · rw [List.map_cons] at hnd
      have h1 := (List.nodup_cons.mp hnd).1
      have h2 := (List.nodup_cons.mp hnd).2
      have hq : ¬ lowerAddr q = lowerAddr p := by
        intro e
        rw [e] at h1
        exact h1 (List.mem_map_of_mem _ hp)
      simp [findByKey, hq, ih h2 hp]

theorem dedupeBy_mem_selectBest {tie : DexPair → ℚ} {l : List DexPair} {p : DexPair}
    (h : p ∈ dedupeBy tie l) :
    selectBest tie (l.filter (fun q => lowerAddr q == lowerAddr p)) = some p := by
  rw [← findByKey_dedupeBy]
  exact findByKey_of_mem_nodup (dedupeBy_keys_nodup tie l) h

theorem dedupeBy_mem_sub {tie : DexPair → ℚ} {l : List DexPair} {p : DexPair}
    (h : p ∈ dedupeBy tie l) : p ∈ l := by
  have h1 := (selectBest_spec _ _ _ (dedupeBy_mem_selectBest h)).1
  exact (List.mem_filter.mp h1).1

theorem dedupeBy_max {tie : DexPair → ℚ} {l : List DexPair} {p : DexPair}
    (h : p ∈ dedupeBy tie l) :
    ∀ q ∈ l, lowerAddr q = lowerAddr p → tie q ≤ tie p := by
  intro q hq he
  have h2 := (selectBest_spec _ _ _ (dedupeBy_mem_selectBest h)).2
  exact h2 q (List.mem_filter.mpr ⟨hq, by simp [he]⟩)

theorem dedupeBy_first {tie : DexPair → ℚ} {l : List DexPair} {p : DexPair}
    (h : p ∈ dedupeBy tie l) :
    ∃ m₁ m₂, l.filter (fun q => lowerAddr q == lowerAddr p) = m₁ ++ p :: m₂ ∧
      ∀ q ∈ m₁, tie q < tie p :=
  selectBest_first _ _ _ (dedupeBy_mem_selectBest h)

theorem dedupeBy_keys_iff (tie : DexPair → ℚ) (l : List DexPair) (k : String) :
    k ∈ (dedupeBy tie l).map lowerAddr ↔ k ∈ l.map lowerAddr := by
  constructor
  · intro h
    rcases List.mem_map.mp h with ⟨p, hp, rfl⟩
    exact List.mem_map_of_mem _ (dedupeBy_mem_sub hp)
  · intro h
    by_contra hc
    have h0 : findByKey k (dedupeBy tie l) = none := findByKey_eq_none.mpr hc
    rw [findByKey_dedupeBy] at h0
    have h1 := (selectBest_eq_none_iff tie _).mp h0
    rcases List.mem_map.mp h with ⟨p, hp, rfl⟩
    have h2 : p ∈ l.filter (fun q => lowerAddr q == lowerAddr p) :=
      List.mem_filter.mpr ⟨hp, by simp⟩
    rw [h1] at h2
    simp at h2

theorem foldl_dedupeStep_of_fresh (tie : DexPair → ℚ) :
    ∀ (l acc : List DexPair), (l.map lowerAddr).Nodup →
      (∀ k ∈ l.map lowerAddr, findByKey k acc = none) →
      l.foldl (dedupeStep tie) acc = acc ++ l := by
  intro l
  induction l with
  | nil => intro acc _ _; simp
  | cons p rest ih =>
    intro acc hnd hfresh
    have hp : findByKey (lowerAddr p) acc = none := hfresh _ (by simp)
    have hstep : dedupeStep tie acc p = acc ++ [p] := by
      unfold dedupeStep
      rw [hp]
    rw [List.map_cons] at hnd
    have hnd2 := List.nodup_cons.mp hnd
    simp only [List.foldl_cons, hstep]
    rw [ih (acc ++ [p]) hnd2.2 ?_]
    · simp
    · intro k hk
      rw [findByKey_append]
      have h1 : findByKey k acc = none := hfresh k (by simp [hk])
      have h2 : ¬ lowerAddr p = k := by
        intro e
        have := hnd2.1
        rw [e] at this
        exact this hk
      simp [h1, findByKey, h2, Option.or]

theorem dedupeBy_of_keys_nodup {tie : DexPair → ℚ} {l : List DexPair}
    (h : (l.map lowerAddr).Nodup) : dedupeBy tie l = l := by
  unfold dedupeBy
  rw [foldl_dedupeStep_of_fresh tie l [] h (fun k _ => rfl)]
  simp

theorem dedupeBy_idem (tie : DexPair → ℚ) (l : List DexPair) :
    dedupeBy tie (dedupeBy tie l) = dedupeBy tie l :=
  dedupeBy_of_keys_nodup (dedupeBy_keys_nodup tie l)

/-! ## Claim theorems -/

/-- C1: for every list of raw pair records, `removeDuplicates` returns
exactly one record per distinct contract address compared case-insensitively
(the output keys are distinct, and a key appears in the output exactly when
some input record carries it); for each address it keeps a record of the
input whose 24h-volume tie-break value is maximal among the records with
that address, and every earlier record with that address has a strictly
smaller tie-break value (so on ties the first-seen record is kept); in
particular, of two records with the same address and volumes 100 and 200,
the volume-200 record is returned. -/
theorem dedup_keeps_unique_max_volume (l : List DexPair) :
    ((removeDuplicates l).map lowerAddr).Nodup
    ∧ (∀ k, k ∈ (removeDuplicates l).map lowerAddr ↔ k ∈ l.map lowerAddr)
    ∧ (∀ p ∈ removeDuplicates l,
        p ∈ l ∧ (∀ q ∈ l, lowerAddr q = lowerAddr p → tieVol q ≤ tieVol p)
          ∧ ∃ m₁ m₂, l.filter (fun q => lowerAddr q == lowerAddr p) = m₁ ++ p :: m₂ ∧
              ∀ q ∈ m₁, tieVol q < tieVol p)
    ∧ removeDuplicates [pairVol100, pairVol200] = [pairVol200] :=
  ⟨dedupeBy_keys_nodup tieVol l, fun k => dedupeBy_keys_iff tieVol l k,
    fun _ hp => ⟨dedupeBy_mem_sub hp, dedupeBy_max hp, dedupeBy_first hp⟩, by decide⟩

theorem dedup_keeps_unique_max_volume_witness :
    removeDuplicates [pairVol100, pairVol200] = [pairVol200]
    ∧ pairVol200 ∈ [pairVol100, pairVol200]
    ∧ tieVol pairVol100 ≤ tieVol pairVol200 := by
  have h := dedup_keeps_unique_max_volume [pairVol100, pairVol200]
  have hmem : pairVol200 ∈ removeDuplicates [pairVol100, pairVol200] := by decide
  have h3 := h.2.2.1 pairVol200 hmem
  exact ⟨h.2.2.2, h3.1, h3.2.1 pairVol100 (by decide) (by decide)⟩

/-- C2: deduplication is idempotent for every list and every tie-break key,
and in particular re-running `removeDuplicates` on an already-deduplicated
list returns the same list. -/
theorem dedup_idempotent :
    (∀ (tie : DexPair → ℚ) (l : List DexPair),
        dedupeBy tie (dedupeBy tie l) = dedupeBy tie l)
    ∧ ∀ l : List DexPair, removeDuplicates (removeDuplicates l) = removeDuplicates l :=
  ⟨dedupeBy_idem, fun l => dedupeBy_idem tieVol l⟩

/-- C4 counterexample: in the no-query aggregation the dedup tie-break is
the 24h volume, not the liquidity.  With one curated lookup yielding a
liquidity-100 (volume-5) pair and one broad search yielding a liquidity-50
(volume-10) pair for the same address, the aggregation returns the
liquidity-50 record and discards the maximum-liquidity one. -/
theorem token_list_dedup_counterexample :
    getAllBaseTokens fetchRespCE searchRespCE = [pSearchLowLiq]
    ∧ lowerAddr pSearchLowLiq = lowerAddr pKnownHighLiq
    ∧ liqD pSearchLowLiq < liqD pKnownHighLiq
    ∧ pKnownHighLiq ∈ mergedTokens fetchRespCE searchRespCE :=
  ⟨by decide, by decide, by decide, by decide⟩

/-- C4 amended: the no-query token-list aggregation merges the per-address
lookups with the broad keyword searches, deduplicates the merged list with
the 24h-volume tie-break (one record per contract address, keeping a record
of maximal `volume.h24`), sorts by `liquidityUsd` descending, and returns
at most 100 records. -/
theorem token_list_aggregation_amended
    (fetchResp searchResp : String → Option (List DexPair)) :
    (getAllBaseTokens fetchResp searchResp).length ≤ 100
    ∧ ((getAllBaseTokens fetchResp searchResp).map lowerAddr).Nodup
    ∧ List.Sorted liqGe (getAllBaseTokens fetchResp searchResp)
    ∧ ∀ p ∈ getAllBaseTokens fetchResp searchResp,
        ∀ q ∈ mergedTokens fetchResp searchResp,
          lowerAddr q = lowerAddr p → tieVol q ≤ tieVol p := by
  refine ⟨?_, ?_, ?_, ?_⟩
  · unfold getAllBaseTokens
    rw [List.length_take]
    exact min_le_left _ _
  · unfold getAllBaseTokens sortByLiqDesc
    have hperm : List.Perm
        (List.insertionSort liqGe (removeDuplicates (mergedTokens fetchResp searchResp)))
        (removeDuplicates (mergedTokens fetchResp searchResp)) :=
      List.perm_insertionSort liqGe _
    have h1 := (hperm.map lowerAddr).nodup_iff.mpr (dedupeBy_keys_nodup tieVol _)
    have h2 := (List.take_sublist 100
      (List.insertionSort liqGe (removeDuplicates (mergedTokens fetchResp searchResp)))).map
        lowerAddr
    exact h1.sublist h2
  · unfold getAllBaseTokens sortByLiqDesc
    have hs : List.Sorted liqGe
        (List.insertionSort liqGe (removeDuplicates (mergedTokens fetchResp searchResp))) :=
      List.sorted_insertionSort liqGe _
    exact hs.sublist (List.take_sublist _ _)
  · intro p hp q hq he
    unfold getAllBaseTokens sortByLiqDesc at hp
    have hp1 : p ∈ List.insertionSort liqGe (removeDuplicates (mergedTokens fetchResp searchResp)) :=
      (List.take_sublist _ _).subset hp
    have hp2 : p ∈ removeDuplicates (mergedTokens fetchResp searchResp) :=
      (List.mem_insertionSort liqGe).mp hp1
    exact dedupeBy_max hp2 q hq he

theorem token_list_aggregation_amended_witness :
    (getAllBaseTokens fetchRespCE searchRespCE).length ≤ 100
    ∧ List.Sorted liqGe (getAllBaseTokens fetchRespCE searchRespCE) :=
  ⟨(token_list_aggregation_amended fetchRespCE searchRespCE).1,
    (token_list_aggregation_amended fetchRespCE searchRespCE).2.2.1⟩

/-- C5 counterexample: the search route does not sort by liquidity.  A
search response carrying a liquidity-10 pair before a liquidity-100 pair
(distinct addresses, both Base-chain) is returned in that order, violating
the claimed non-increasing order of `dexInfo.liquidityUsd`. -/
theorem search_sorted_counterexample :
    (routeSearchTokens [pLowLiq, pHighLiq]).map StdToken.dex_liquidityUsd =
      [some 10, some 100]
    ∧ ¬ List.Chain' (fun a b => stdLiq b ≤ stdLiq a)
        (routeSearchTokens [pLowLiq, pHighLiq]) := by
  constructor
  · decide
  · intro h
    have h1 : routeSearchTokens [pLowLiq, pHighLiq] =
        [convertToStandardFormat pLowLiq, convertToStandardFormat pHighLiq] := by decide
    rw [h1] at h
    have h3 := (List.chain'_cons.mp h).1
    norm_num [stdLiq, convertToStandardFormat, pHighLiq, pLowLiq, mkPair] at h3

/-- C5 amended: for every token search, the returned records have pairwise
distinct `contractAddress` values (and pairwise distinct lowercased `id`s);
the list is the deduplicated, Base-filtered search result in first-seen
order, not sorted by liquidity. -/
theorem search_unique_amended (pairs : List DexPair) :
    ((routeSearchTokens pairs).map StdToken.contract_address).Nodup
    ∧ ((routeSearchTokens pairs).map StdToken.id).Nodup
    ∧ routeSearchTokens pairs =
        (removeDuplicates (pairs.filter isBasePair)).map convertToStandardFormat := by
  have hkeys : ((removeDuplicates (pairs.filter isBasePair)).map lowerAddr).Nodup :=
    dedupeBy_keys_nodup tieVol _
  refine ⟨?_, ?_, rfl⟩
  · have h1 : (routeSearchTokens pairs).map StdToken.contract_address =
        (removeDuplicates (pairs.filter isBasePair)).map DexPair.baseAddress := by
      simp [routeSearchTokens, searchBaseTokens, convertToStandardFormat, List.map_map]
    rw [h1]
    have h2 : ((removeDuplicates (pairs.filter isBasePair)).map DexPair.baseAddress).map
        strToLower = (removeDuplicates (pairs.filter isBasePair)).map lowerAddr := by
      rw [List.map_map]
      rfl
    exact List.Nodup.of_map _ (h2 ▸ hkeys)
  · have h1 : (routeSearchTokens pairs).map StdToken.id =
        (removeDuplicates (pairs.filter isBasePair)).map lowerAddr := by
      simp [routeSearchTokens, searchBaseTokens, convertToStandardFormat, List.map_map,
        lowerAddr]
    rw [h1]
    exact hkeys

theorem search_unique_amended_witness :
    ((routeSearchTokens [pLowLiq, pHighLiq]).map StdToken.contract_address).Nodup :=
  (search_unique_amended [pLowLiq, pHighLiq]).1

/-- C3: the wallet-profile aggregation succeeds exactly when at least one of
the three sub-calls has data; on a partial success each failed sub-call's
field defaults (`wallet = none`, `transactions = []`, `tokens = []`) while
each succeeded sub-call's field carries its data; it fails with the
all-sources-failed error exactly when all three sub-calls fail. -/
theorem aggregation_partial_success {T K : Type} (wR : SubResp WalletData)
    (tR : SubResp (List T)) (kR : SubResp (List K)) :
    ((fetchRealData wR tR kR).isOk = (hasData wR || hasData tR || hasData kR))
    ∧ (fetchRealData wR tR kR = Except.error "All API calls failed to fetch wallet data" ↔
        (hasData wR || hasData tR || hasData kR) = false)
    ∧ ∀ d, fetchRealData wR tR kR = Except.ok d →
        (hasData wR = false → d.wallet = none)
        ∧ (hasData tR = false → d.transactions = [])
        ∧ (hasData kR = false → d.tokens = [])
        ∧ (hasData wR = true → d.wallet.isSome = true)
        ∧ (hasData tR = true → d.transactions = tR.data.getD [])
        ∧ (hasData kR = true → d.tokens = kR.data.getD []) := by
  cases hcond : (hasData wR || hasData tR || hasData kR) with
  | true =>
    refine ⟨by simp [fetchRealData, hcond, Except.isOk, Except.toBool],
      by simp [fetchRealData, hcond], ?_⟩
    intro d hd
    simp only [fetchRealData, hcond, if_true] at hd
    cases hd
    refine ⟨?_, ?_, ?_, ?_, ?_, ?_⟩ <;> intro hx
    · simp [hx]
    · simp [hx]
    · simp [hx]
    · have hx2 : wR.data.isSome = true := by
        unfold hasData at hx
        exact (Bool.and_eq_true _ _).mp hx |>.2
      simp [hx, hx2]
    · simp [hx]
    · simp [hx]
  | false =>
    refine ⟨by simp [fetchRealData, hcond, Except.isOk, Except.toBool],
      by simp [fetchRealData, hcond], ?_⟩
    intro d hd
    simp [fetchRealData, hcond] at hd

theorem aggregation_partial_success_witness :
    (fetchRealData wRespEx tRespEx kRespEx).isOk = true
    ∧ aggEx.transactions = [] ∧ aggEx.wallet.isSome = true ∧ aggEx.tokens = [7] := by
  have h := aggregation_partial_success wRespEx tRespEx kRespEx
  have hok : fetchRealData wRespEx tRespEx kRespEx = Except.ok aggEx := rfl
  have h3 := h.2.2 aggEx hok
  refine ⟨by rw [h.1]; decide, h3.2.1 (by decide), h3.2.2.2.1 (by decide), ?_⟩
  rw [h3.2.2.2.2.2 (by decide)]
  decide

/-- C6: a request whose every attempt times out is attempted exactly 3
times and then fails with the timeout error, and no upstream behavior
causes more than 3 attempts. -/
theorem retry_ceiling :
    (∀ env : Nat → Attempt, (∀ n, env n = Attempt.timeout) →
        makeRequest env =
          Except.error "Request timeout - API took too long to respond after all retries"
        ∧ makeRequestAttempts env = 3)
    ∧ ∀ env : Nat → Attempt, makeRequestAttempts env ≤ 3 := by
  constructor
  · intro env h
    constructor <;> simp [makeRequest, makeRequestAttempts, makeRequestGo, attemptStep, h]
  · intro env
    have hle : ∀ (fuel attempt : Nat) (le : Option String),
        (makeRequestGo env 3 fuel attempt le).2 ≤ fuel := by
      intro fuel
      induction fuel with
      | zero => intro attempt le; simp [makeRequestGo]
      | succ f ih =>
        intro attempt le
        simp only [makeRequestGo]
        cases hstep : attemptStep (env attempt) (!decide (attempt < 3)) with
        | inl r => simp
        | inr le2 => simpa using Nat.succ_le_succ (ih (attempt + 1) (le2.orElse fun _ => le))
    exact hle 3 1 none

theorem retry_ceiling_witness :
    makeRequest (fun _ => Attempt.timeout) =
      Except.error "Request timeout - API took too long to respond after all retries"
    ∧ makeRequestAttempts (fun _ => Attempt.timeout) = 3 :=
  retry_ceiling.1 (fun _ => Attempt.timeout) (fun _ => rfl)

/-- C7: a first attempt answered with a semantically empty Etherscan error
(`NOTOK` with a result string reporting an invalid address or no
transactions found, and no rate-limit marker) makes the request return the
successful empty array after exactly one attempt — no error, no retry. -/
theorem empty_result_short_circuit (env : Nat → Attempt) (b : EsBody) (st r : String)
    (h1 : env 1 = Attempt.body b) (h2 : b.status = some st) (h3 : st ≠ "1")
    (h4 : b.message = some "NOTOK") (h5 : b.result = ApiValue.strV r)
    (h6 : strContains r "rate limit" = false)
    (h7 : strContains r "Max rate limit reached" = false)
    (h8 : (strContains r "Invalid address" || strContains r "No transactions found") = true) :
    makeRequest env = Except.ok (ApiValue.listV []) ∧ makeRequestAttempts env = 1 := by
  have hstep : attemptStep (env 1) false =
      Sum.inl (Except.ok (ApiValue.listV [])) := by
    rw [h1]
    simp [attemptStep, bodyStep, esErrorStep, h2, h3, h4, h5, h6, h7, h8]
  constructor <;> simp [makeRequest, makeRequestAttempts, makeRequestGo, hstep]

theorem empty_result_short_circuit_witness :
    makeRequest (fun _ => Attempt.body emptyBody) = Except.ok (ApiValue.listV [])
    ∧ makeRequestAttempts (fun _ => Attempt.body emptyBody) = 1 :=
  empty_result_short_circuit (fun _ => Attempt.body emptyBody) emptyBody "0"
    "Error! Invalid address format" rfl rfl (by decide) rfl rfl (by decide) (by decide)
    (by decide)

/-- C8 counterexample: a read at age exactly equal to the TTL misses (the
code keeps an entry fresh only while `age < ttl`), although the age does
not exceed the TTL — so "miss exactly when absent or age exceeds the TTL"
fails at the boundary. -/
theorem cache_boundary_counterexample :
    (cacheGet (some { payload := (0 : Nat), timestamp := 0 }) 180000 180000).1 = none
    ∧ ¬ ((180000 : ℤ) - 0 > 180000) := by
  constructor
  · decide
  · decide

/-- C8 amended: a cache read misses exactly when the entry is absent or its
age is at least the TTL (`now - fetchedAt ≥ ttl`); on a miss the stale
entry is evicted, and a fresh read returns the payload leaving the entry in
place; an entry written at t=0 with ttl=180000ms is fresh at t=179999ms and
misses at t=180001ms. -/
theorem cache_ttl_amended :
    (∀ (α : Type) (store : Option (CacheEntry α)) (now ttl : ℤ),
        ((cacheGet store now ttl).1 = none ↔
          store = none ∨ ∃ e, store = some e ∧ ttl ≤ now - e.timestamp)
        ∧ ((cacheGet store now ttl).1 = none → (cacheGet store now ttl).2 = none)
        ∧ ∀ e, store = some e → ¬ ttl ≤ now - e.timestamp →
            (cacheGet store now ttl).1 = some e.payload ∧ (cacheGet store now ttl).2 = some e)
    ∧ (cacheGet (some { payload := (0 : Nat), timestamp := 0 }) 179999 180000).1 = some 0
    ∧ (cacheGet (some { payload := (0 : Nat), timestamp := 0 }) 180001 180000).1 = none := by
  refine ⟨?_, by decide, by decide⟩
  intro α store now ttl
  cases store with
  | none => simp [cacheGet]
  | some e =>
    by_cases h : now - e.timestamp < ttl
    · refine ⟨?_, ?_, ?_⟩
      · simp only [cacheGet, if_pos h]
        simp [not_le.mpr h]
      · intro habs
        simp [cacheGet, if_pos h] at habs
      · intro e' he' _
        have he2 : e = e' := by injection he'
        subst he2
        simp [cacheGet, if_pos h]
    · refine ⟨?_, ?_, ?_⟩
      · simp only [cacheGet, if_neg h]
        simp [not_lt.mp h]
      · intro _
        simp [cacheGet, if_neg h]
      · intro e' he' hle'
        have he2 : e = e' := by injection he'
        subst he2
        exact absurd (not_lt.mp h) hle'

theorem cache_ttl_amended_witness :
    (cacheGet (some { payload := (5 : Nat), timestamp := 0 }) 1000 180000).1 = some 5 := by
  have h := (cache_ttl_amended.1 Nat (some { payload := 5, timestamp := 0 }) 1000 180000).2.2
  exact (h _ rfl (by decide)).1

/-- C9: the native-value conversion divides the parsed raw wei string by
10^18 and the balance conversion divides the parsed raw amount by
10^tokenDecimal; the wei string `"1000000000000000000"` normalizes to the
6-decimal display value 1.000000 and multiplying back by 10^18 recovers
the original integer, and balance `"250000"` with decimals `6` formats to
0.25. -/
theorem unit_conversion :
    formatTransactionValueQ "1000000000000000000" = 1000000 / 10 ^ 6
    ∧ formatTransactionValueQ "1000000000000000000" * 10 ^ 18 = 1000000000000000000
    ∧ routeBalanceFormatted "250000" "6" = 25 / 100
    ∧ (∀ s n, strToNat s = some n → formatTransactionValueQ s = (n : ℚ) / 10 ^ 18)
    ∧ (∀ s d n dn, strToNat s = some n → strToNat d = some dn →
        routeBalanceFormatted s d = (n : ℚ) / 10 ^ dn) := by
  have hw : strToNat "1000000000000000000" = some 1000000000000000000 := by decide
  have hb : strToNat "250000" = some 250000 := by decide
  have hd : strToNat "6" = some 6 := by decide
  refine ⟨?_, ?_, ?_, ?_, ?_⟩
  · unfold formatTransactionValueQ parseDecQ
    rw [hw]
    norm_num
  · unfold formatTransactionValueQ parseDecQ
    rw [hw]
    norm_num
  · unfold routeBalanceFormatted parseDecQ
    rw [hb, hd]
    norm_num
  · intro s n h
    unfold formatTransactionValueQ parseDecQ
    rw [h]
    rfl
  · intro s d n dn hs hds
    unfold routeBalanceFormatted parseDecQ
    rw [hs, hds]
    rfl

theorem unit_conversion_witness :
    formatTransactionValueQ "7" = (7 : ℚ) / 10 ^ 18
    ∧ routeBalanceFormatted "123" "2" = (123 : ℚ) / 10 ^ 2 :=
  ⟨unit_conversion.2.2.2.1 "7" 7 (by decide),
    unit_conversion.2.2.2.2 "123" "2" 123 2 (by decide) (by decide)⟩

/-- C10: every token-balance record the operation produces carries the
constant raw balance string `"0"` and the formatted balance `"0"`, and the
route's numeric formatting of it is 0 — no input transfer list ever yields
a non-zero balance. -/
theorem token_balances_always_zero (addr : String) (transfers : List RawTransfer) :
    ∀ b ∈ getTokenBalances addr transfers,
      b.balance = "0" ∧ b.balanceFormatted = "0"
      ∧ routeBalanceFormatted b.balance b.tokenDecimal = 0 := by
  have key : ∀ (ts : List RawTransfer) (acc : List EtherscanTokenBalance),
      (∀ b ∈ acc, b.balance = "0" ∧ b.balanceFormatted = "0") →
      ∀ b ∈ ts.foldl (tokenBalanceStep addr) acc,
        b.balance = "0" ∧ b.balanceFormatted = "0" := by
    intro ts
    induction ts with
    | nil => intro acc h b hb; exact h b hb
    | cons t rest ih =>
      intro acc hacc b hb
      refine ih _ ?_ b hb
      intro c hc
      unfold tokenBalanceStep at hc
      split at hc
      · exact hacc c hc
      · split at hc
        · rcases List.mem_append.mp hc with hcl | hcr
          · exact hacc c hcl
          · have hce := List.mem_singleton.mp hcr
            subst hce
            exact ⟨rfl, rfl⟩
        · exact hacc c hc
  intro b hb
  have h0 := key transfers [] (by simp) b hb
  have hz : strToNat "0" = some 0 := by decide
  refine ⟨h0.1, h0.2, ?_⟩
  rw [h0.1]
  unfold routeBalanceFormatted parseDecQ
  rw [hz]
  norm_num

theorem token_balances_always_zero_witness :
    balEx.balance = "0" ∧ balEx.balanceFormatted = "0"
    ∧ routeBalanceFormatted balEx.balance balEx.tokenDecimal = 0 :=
  token_balances_always_zero "0xme" [transferEx] balEx (by decide)
